import Mathlib

/-!
Shallow embedding of the calculator script `mon.py` (a Streamlit scientific
calculator).  The embedding models:

* `ScientificCalculator.evaluate` — preprocessing by textual substitution
  (caret to double-star, the pi symbol and the letter e to decimal literals)
  followed by evaluation of the resulting text against a restricted
  namespace, mirroring the restricted `eval` call of the source;
* `ScientificCalculator.scientific_function` — single unary function
  application over a fixed table;
* the session-state handlers (`calculate`, `apply_function`, `button_click`,
  `clear`, `clear_entry`, the memory handlers, the Clear-History handler,
  the sign toggle and the Programmer-mode bitwise buttons);
* the Programmer-mode numeral base conversion.

Modelling conventions (idealizations, stated once here):

* Python floats are modelled as exact rationals (`ℚ`).  None of the claims
  under verification depends on IEEE-754 rounding; the decimal literals the
  preprocessing inserts for pi and e are taken at their printed decimal
  value.  `math.factorial` is modelled with the semantics of the Python
  versions that accept integral floats (the behaviour the script and its
  spec rely on for the factorial button, which always passes a float).
* Transcendental functions (sin, log, exp, ...) have no exact rational
  values; the embedding is parametric over a structure `TranscFns` carrying
  arbitrary total rational approximations of them, while the *domain checks*
  (log of a nonpositive number, sqrt of a negative number, arcsine outside
  the unit interval, reciprocal of zero, factorial of a negative or
  non-integral value, division by zero) are modelled exactly as the Python
  functions raise them.  Every theorem below is proved for all instances.
* The Python expression grammar reachable through `eval` is modelled for
  the fragment the calculator can produce and the claims exercise:
  numeric literals, string literals (both quote kinds, without escape
  processing or adjacent-literal concatenation), names, unary plus/minus,
  `+ - * / **` (including string concatenation and repetition, and the
  complex number a fractional power of a negative base returns),
  parentheses, tuple displays and call syntax.  Constructs outside the
  fragment (comparison chains, attribute access, `%`, `//`, bit
  operators, and arithmetic whose *operands* are already complex) lex,
  parse or evaluate to an error, exactly like other ill-formed input; no
  claim depends on them.  Error messages reproduce the Python text with
  quote characters omitted.
* `str` of a float is rendered as the exact terminating decimal expansion
  when it terminates within 30 digits (all claim-relevant values do); the
  scientific-notation fallback of Python for huge magnitudes is not
  modelled.
-/

namespace Mon

/-- Python runtime values reachable from the restricted `eval` of the
source: integers, floats (modelled as `ℚ`), strings, tuples and the
built-in function objects stored in the safe namespace. -/
inductive PyVal where
| vint (n : ℤ)
| vfloat (q : ℚ)
| vstr (s : String)
| vtuple (vs : List PyVal)
| vfunc (n : String)
| vcomplex (re im : ℚ)
| vdictEmpty

/-- Numeric Python values: every arithmetic operator and every function of
the safe namespace returns one of these on success. -/
inductive PyNum where
| i (n : ℤ)
| f (q : ℚ)
deriving DecidableEq, Repr

/-- Injection of numeric results back into the value universe. -/
def PyNum.toVal : PyNum → PyVal
| .i n => .vint n
| .f q => .vfloat q

/-- Decimal digits of the fractional part of a nonnegative rational, most
significant first, stopping when the expansion terminates (fuel-bounded). -/
def fracDigits : ℕ → ℚ → List Char
| 0, _ => []
| k+1, f =>
  if f = 0 then []
  else
    let d := Rat.floor (f * 10)
    Char.ofNat (48 + d.toNat) :: fracDigits k (f * 10 - d)

/-- Model of Python `str` on a float: sign, integer part, a decimal point
and the fractional digits (`.0` when the value is integral), matching the
repr of every claim-relevant float. -/
def floatStr (q : ℚ) : String :=
  let a := if q < 0 then -q else q
  let ip := Rat.floor a
  let ds := fracDigits 30 (a - ip)
  (if q < 0 then "-" else "") ++ toString ip ++ "." ++
    (if ds.isEmpty then "0" else String.mk ds)

mutual

/-- Model of Python `str` on the reachable values (complex rendering is
schematic — both components always shown — and the empty dict renders as
its braces; no claim prints either). -/
def pyStr : PyVal → String
| .vint n => toString n
| .vfloat q => floatStr q
| .vstr s => s
| .vfunc n => "<built-in function " ++ n ++ ">"
| .vcomplex re im => "(" ++ floatStr re ++ "+" ++ floatStr im ++ "j)"
| .vdictEmpty => "\x7b\x7d"
| .vtuple [] => "()"
| .vtuple [v] => "(" ++ pyStr v ++ ",)"
| .vtuple (v :: w :: vs) => "(" ++ pyStr v ++ pyStrRest (w :: vs) ++ ")"

/-- Comma-separated continuation of a tuple rendering. -/
def pyStrRest : List PyVal → String
| [] => ""
| v :: vs => ", " ++ pyStr v ++ pyStrRest vs

end

/-- Textual substitution of every occurrence of the character `c` by the
string `r`, the single-character instance of `str.replace` used by the
preprocessing in `evaluate`. -/
def replaceChar (c : Char) (r : String) (s : String) : String :=
  String.mk (s.data.foldr (fun ch acc => (if ch = c then r.data else [ch]) ++ acc) [])

/-- Decimal literal inserted for the pi symbol: `str(math.pi)`. -/
def piStr : String := "3.141592653589793"

/-- Decimal literal inserted for the letter e: `str(math.e)`. -/
def eStr : String := "2.718281828459045"

/-- Exact rational value of the inserted pi literal. -/
def piQ : ℚ := 3141592653589793 / 1000000000000000

/-- Exact rational value of the inserted e literal. -/
def eQ : ℚ := 2718281828459045 / 1000000000000000

/-- Preprocessing performed by `ScientificCalculator.evaluate`, in source
order: `^` to `**`, the pi symbol to its decimal literal, then **every**
occurrence of the character e to the decimal literal of Euler's number. -/
def preprocess (s : String) : String :=
  replaceChar 'e' eStr (replaceChar 'π' piStr (replaceChar '^' "**" s))

/-- Tokens of the expression fragment reachable through the restricted
`eval` of the source. -/
inductive Tok where
| num (v : PyNum)
| name (s : String)
| str (s : String)
| plus
| minus
| star
| slash
| dstar
| lparen
| rparen
| comma
deriving DecidableEq, Repr

/-- Leading run of decimal digits of a character list, paired with the
remainder. -/
def takeDigits : List Char → List Char × List Char
| [] => ([], [])
| c :: cs =>
  if c.isDigit then
    let p := takeDigits cs
    (c :: p.1, p.2)
  else ([], c :: cs)

/-- Leading run of identifier characters (letters, digits, underscore). -/
def takeIdent : List Char → List Char × List Char
| [] => ([], [])
| c :: cs =>
  if c.isAlphanum || c = '_' then
    let p := takeIdent cs
    (c :: p.1, p.2)
  else ([], c :: cs)

/-- Value of a digit string. -/
def digitsToNat (ds : List Char) : ℕ :=
  ds.foldl (fun acc c => 10 * acc + (c.toNat - 48)) 0

/-- Identifier-start characters (CPython also allows many non-ASCII
letters; none is reachable from the preprocessed calculator input). -/
def isIdentStart (c : Char) : Bool := c.isAlpha || c = '_'

/-- The double-quote character. -/
def dquote : Char := Char.ofNat 34

/-- The single-quote character. -/
def squote : Char := Char.ofNat 39

/-- Body of a string literal up to the closing quote `q`, with the
remainder after it; `none` when the literal is unterminated.  Escape
sequences are not interpreted (no claim exercises them). -/
def takeStr (q : Char) : List Char → Option (List Char × List Char)
| [] => none
| c :: cs =>
  if c = q then some ([], cs)
  else
    match takeStr q cs with
    | none => none
    | some p => some (c :: p.1, p.2)

/-- Lexing of one numeric literal, mirroring the CPython tokenizer on the
reachable fragment: an optional integer part, an optional dot with an
optional fractional part; a multi-digit integer literal with a leading
zero is rejected, and a number followed directly by an identifier
character is rejected (the error the e-substitution typically causes). -/
def lexNum (cs : List Char) : Except String (PyNum × List Char) :=
  let p1 := takeDigits cs
  match p1.2 with
  | '.' :: cs2 =>
    let p2 := takeDigits cs2
    if p1.1.isEmpty && p2.1.isEmpty then .error "invalid syntax"
    else
      match p2.2 with
      | c :: _ =>
        if isIdentStart c then .error "invalid decimal literal"
        else .ok (.f ((digitsToNat p1.1 : ℚ) + (digitsToNat p2.1 : ℚ) / (10 : ℚ) ^ p2.1.length), p2.2)
      | [] => .ok (.f ((digitsToNat p1.1 : ℚ) + (digitsToNat p2.1 : ℚ) / (10 : ℚ) ^ p2.1.length), [])
  | rest =>
    if p1.1.length > 1 && p1.1.head? = some '0' && p1.1.any (· ≠ '0') then
      .error "leading zeros in decimal integer literals are not permitted"
    else
      match rest with
      | c :: _ =>
        if isIdentStart c then .error "invalid decimal literal"
        else .ok (.i (digitsToNat p1.1 : ℤ), rest)
      | [] => .ok (.i (digitsToNat p1.1 : ℤ), [])

/-- Fuel-driven tokenizer; the fuel is the length of the input plus one,
and each step consumes at least one character. -/
def lexT : ℕ → List Char → Except String (List Tok)
| 0, _ => .error "internal lexer fuel exhausted"
| _+1, [] => .ok []
| k+1, c :: cs =>
  if c.isWhitespace then lexT k cs
  else if c.isDigit then
    match lexNum (c :: cs) with
    | .error m => .error m
    | .ok (v, rest) =>
      match lexT k rest with
      | .error m => .error m
      | .ok ts => .ok (.num v :: ts)
  else if c = '.' then
    match cs with
    | d :: _ =>
      if d.isDigit then
        match lexNum (c :: cs) with
        | .error m => .error m
        | .ok (v, rest) =>
          match lexT k rest with
          | .error m => .error m
          | .ok ts => .ok (.num v :: ts)
      else .error "invalid syntax"
    | [] => .error "invalid syntax"
  else if isIdentStart c then
    let p := takeIdent (c :: cs)
    match lexT k p.2 with
    | .error m => .error m
    | .ok ts => .ok (.name (String.mk p.1) :: ts)
  else if c = dquote || c = squote then
    match takeStr c cs with
    | none => .error "unterminated string literal"
    | some p =>
      match lexT k p.2 with
      | .error m => .error m
      | .ok ts => .ok (.str (String.mk p.1) :: ts)
  else if c = '+' then (lexT k cs).map (.plus :: ·)
  else if c = '-' then (lexT k cs).map (.minus :: ·)
  else if c = '*' then
    match cs with
    | '*' :: cs2 => (lexT k cs2).map (.dstar :: ·)
    | _ => (lexT k cs).map (.star :: ·)
  else if c = '/' then (lexT k cs).map (.slash :: ·)
  else if c = '(' then (lexT k cs).map (.lparen :: ·)
  else if c = ')' then (lexT k cs).map (.rparen :: ·)
  else if c = ',' then (lexT k cs).map (.comma :: ·)
  else .error "invalid character"

/-- Tokenize a whole preprocessed expression string. -/
def lexAll (s : String) : Except String (List Tok) :=
  lexT (s.data.length + 1) s.data

/-- Unary operators of the reachable fragment. -/
inductive UnOp where
| neg
| pos
deriving DecidableEq, Repr

/-- Binary operators of the reachable fragment. -/
inductive BinOp where
| add
| sub
| mul
| div
| pow
deriving DecidableEq, Repr

/-- Abstract syntax of the Python expression fragment reachable through
the restricted `eval` call. -/
inductive Expr where
| intL (n : ℤ)
| floatL (q : ℚ)
| strL (s : String)
| name (s : String)
| un (op : UnOp) (a : Expr)
| bin (op : BinOp) (a b : Expr)
| tup (es : List Expr)
| call (f : Expr) (args : List Expr)

/-- Result of a parsing step: an expression and the unconsumed tokens. -/
abbrev PRes := Except String (Expr × List Tok)

/-- Tokens that can begin an expression (used to recognise a trailing
comma in a tuple display). -/
def startsExpr : List Tok → Bool
| .num _ :: _ => true
| .name _ :: _ => true
| .str _ :: _ => true
| .lparen :: _ => true
| .plus :: _ => true
| .minus :: _ => true
| _ => false

mutual

/-- Top level of the grammar: a comma-separated expression list, a bare
tuple display when more than one item or a trailing comma is present. -/
def parseTestlist : ℕ → List Tok → PRes
| 0, _ => .error "expression too complex"
| k+1, ts =>
  match parseArith k ts with
  | .error m => .error m
  | .ok (a, ts2) => parseTestRest k [a] ts2

/-- Continuation of a comma-separated list, accumulating items in
reverse. -/
def parseTestRest : ℕ → List Expr → List Tok → PRes
| 0, _, _ => .error "expression too complex"
| k+1, acc, ts =>
  match ts with
  | .comma :: ts2 =>
    if startsExpr ts2 then
      match parseArith k ts2 with
      | .error m => .error m
      | .ok (b, ts3) => parseTestRest k (b :: acc) ts3
    else .ok (.tup acc.reverse, ts2)
  | _ =>
    match acc with
    | [a] => .ok (a, ts)
    | _ => .ok (.tup acc.reverse, ts)

/-- Additive level: terms separated by plus or minus. -/
def parseArith : ℕ → List Tok → PRes
| 0, _ => .error "expression too complex"
| k+1, ts =>
  match parseTerm k ts with
  | .error m => .error m
  | .ok (a, ts2) => parseArithRest k a ts2

/-- Left-associative continuation of the additive level. -/
def parseArithRest : ℕ → Expr → List Tok → PRes
| 0, _, _ => .error "expression too complex"
| k+1, a, ts =>
  match ts with
  | .plus :: ts2 =>
    match parseTerm k ts2 with
    | .error m => .error m
    | .ok (b, ts3) => parseArithRest k (.bin .add a b) ts3
  | .minus :: ts2 =>
    match parseTerm k ts2 with
    | .error m => .error m
    | .ok (b, ts3) => parseArithRest k (.bin .sub a b) ts3
  | _ => .ok (a, ts)

/-- Multiplicative level: factors separated by star or slash. -/
def parseTerm : ℕ → List Tok → PRes
| 0, _ => .error "expression too complex"
| k+1, ts =>
  match parseFactor k ts with
  | .error m => .error m
  | .ok (a, ts2) => parseTermRest k a ts2

/-- Left-associative continuation of the multiplicative level. -/
def parseTermRest : ℕ → Expr → List Tok → PRes
| 0, _, _ => .error "expression too complex"
| k+1, a, ts =>
  match ts with
  | .star :: ts2 =>
    match parseFactor k ts2 with
    | .error m => .error m
    | .ok (b, ts3) => parseTermRest k (.bin .mul a b) ts3
  | .slash :: ts2 =>
    match parseFactor k ts2 with
    | .error m => .error m
    | .ok (b, ts3) => parseTermRest k (.bin .div a b) ts3
  | _ => .ok (a, ts)

/-- Unary level: prefix plus and minus bind looser than the power
operator on its left, exactly as in the Python grammar. -/
def parseFactor : ℕ → List Tok → PRes
| 0, _ => .error "expression too complex"
| k+1, ts =>
  match ts with
  | .plus :: ts2 =>
    match parseFactor k ts2 with
    | .error m => .error m
    | .ok (a, ts3) => .ok (.un .pos a, ts3)
  | .minus :: ts2 =>
    match parseFactor k ts2 with
    | .error m => .error m
    | .ok (a, ts3) => .ok (.un .neg a, ts3)
  | _ => parsePower k ts

/-- Power level: right-associative double star whose right operand may
start with a unary sign. -/
def parsePower : ℕ → List Tok → PRes
| 0, _ => .error "expression too complex"
| k+1, ts =>
  match parseAtomTrail k ts with
  | .error m => .error m
  | .ok (a, ts2) =>
    match ts2 with
    | .dstar :: ts3 =>
      match parseFactor k ts3 with
      | .error m => .error m
      | .ok (b, ts4) => .ok (.bin .pow a b, ts4)
    | _ => .ok (a, ts2)

/-- An atom followed by any number of call trailers. -/
def parseAtomTrail : ℕ → List Tok → PRes
| 0, _ => .error "expression too complex"
| k+1, ts =>
  match parseAtom k ts with
  | .error m => .error m
  | .ok (a, ts2) => parseTrailers k a ts2

/-- Call-trailer loop: each opening parenthesis after an atom is a call. -/
def parseTrailers : ℕ → Expr → List Tok → PRes
| 0, _, _ => .error "expression too complex"
| k+1, a, ts =>
  match ts with
  | .lparen :: ts2 =>
    match parseArgs k ts2 with
    | .error m => .error m
    | .ok (args, ts3) => parseTrailers k (.call a args) ts3
  | _ => .ok (a, ts)

/-- Atoms: literals, names, the empty tuple and parenthesised lists. -/
def parseAtom : ℕ → List Tok → PRes
| 0, _ => .error "expression too complex"
| k+1, ts =>
  match ts with
  | .num (.i n) :: ts2 => .ok (.intL n, ts2)
  | .num (.f q) :: ts2 => .ok (.floatL q, ts2)
  | .str s :: ts2 => .ok (.strL s, ts2)
  | .name s :: ts2 => .ok (.name s, ts2)
  | .lparen :: .rparen :: ts2 => .ok (.tup [], ts2)
  | .lparen :: ts2 =>
    match parseTestlist k ts2 with
    | .error m => .error m
    | .ok (a, ts3) =>
      match ts3 with
      | .rparen :: ts4 => .ok (a, ts4)
      | _ => .error "invalid syntax"
  | _ => .error "invalid syntax"

/-- Argument list of a call, the opening parenthesis already consumed; a
trailing comma is accepted as in Python. -/
def parseArgs : ℕ → List Tok → Except String (List Expr × List Tok)
| 0, _ => .error "expression too complex"
| k+1, ts =>
  match ts with
  | .rparen :: ts2 => .ok ([], ts2)
  | _ =>
    match parseArith k ts with
    | .error m => .error m
    | .ok (a, ts2) => parseArgsRest k [a] ts2

/-- Continuation of a call argument list, accumulating in reverse. -/
def parseArgsRest : ℕ → List Expr → List Tok → Except String (List Expr × List Tok)
| 0, _, _ => .error "expression too complex"
| k+1, acc, ts =>
  match ts with
  | .rparen :: ts2 => .ok (acc.reverse, ts2)
  | .comma :: .rparen :: ts2 => .ok (acc.reverse, ts2)
  | .comma :: ts2 =>
    match parseArith k ts2 with
    | .error m => .error m
    | .ok (b, ts3) => parseArgsRest k (b :: acc) ts3
  | _ => .error "invalid syntax"

end

/-- Parse a full token list into one expression consuming every token. -/
def parseFull (ts : List Tok) : Except String Expr :=
  match parseTestlist (8 * (ts.length + 1)) ts with
  | .error m => .error m
  | .ok (a, []) => .ok a
  | .ok (_, _ :: _) => .error "invalid syntax"

/-- Abstract rational approximations of the transcendental library
functions; the embedding is parametric over them while every domain check
is modelled concretely.  `fpow` stands for a float power with a
non-integral exponent and a positive base. -/
structure TranscFns where
  sin : ℚ → ℚ
  cos : ℚ → ℚ
  tan : ℚ → ℚ
  asin : ℚ → ℚ
  acos : ℚ → ℚ
  atan : ℚ → ℚ
  sinh : ℚ → ℚ
  cosh : ℚ → ℚ
  tanh : ℚ → ℚ
  exp : ℚ → ℚ
  ln : ℚ → ℚ
  log10 : ℚ → ℚ
  sqrt : ℚ → ℚ
  deg : ℚ → ℚ
  rad : ℚ → ℚ
  fpow : ℚ → ℚ → ℚ
  cpowRe : ℚ → ℚ → ℚ
  cpowIm : ℚ → ℚ → ℚ

/-- Numeric reading of a value, mirroring how the Python number protocol
accepts ints and floats. -/
def toQ : PyVal → Option ℚ
| .vint n => some (n : ℚ)
| .vfloat q => some q
| _ => none

/-- Discriminates ints, used to pick the int/int or float form of a
division-by-zero message. -/
def isVInt : PyVal → Bool
| .vint _ => true
| _ => false

/-- Predicate for a float whose value is mathematically an integer, the
model of `float.is_integer`. -/
def isIntegralQ (q : ℚ) : Bool := q.den = 1

/-- Unary plus and minus of the Python number protocol. -/
def applyUn : UnOp → PyVal → Except String PyNum
| .neg, .vint n => .ok (.i (-n))
| .neg, .vfloat q => .ok (.f (-q))
| .neg, _ => .error "bad operand type for unary -"
| .pos, .vint n => .ok (.i n)
| .pos, .vfloat q => .ok (.f q)
| .pos, _ => .error "bad operand type for unary +"

/-- String repetition `s * n` of Python, empty for a nonpositive count. -/
def strRepeat (s : String) : ℤ → String
| .ofNat n => String.join (List.replicate n s)
| .negSucc _ => ""

/-- Binary arithmetic of the Python number protocol on the reachable
values: exact int arithmetic, float contagion, string concatenation and
repetition, true division always returning a float, and the power
operator with its zero-base guard and the complex result a fractional
power of a negative base returns (its components are abstract; complex
*operands* to further arithmetic are outside the modelled fragment). -/
def applyBin (M : TranscFns) : BinOp → PyVal → PyVal → Except String PyVal
| .add, .vint a, .vint b => .ok (.vint (a + b))
| .add, .vstr a, .vstr b => .ok (.vstr (a ++ b))
| .add, a, b =>
  match toQ a, toQ b with
  | some x, some y => .ok (.vfloat (x + y))
  | _, _ => .error "unsupported operand types for +"
| .sub, .vint a, .vint b => .ok (.vint (a - b))
| .sub, a, b =>
  match toQ a, toQ b with
  | some x, some y => .ok (.vfloat (x - y))
  | _, _ => .error "unsupported operand types for -"
| .mul, .vint a, .vint b => .ok (.vint (a * b))
| .mul, .vstr a, .vint b => .ok (.vstr (strRepeat a b))
| .mul, .vint a, .vstr b => .ok (.vstr (strRepeat b a))
| .mul, a, b =>
  match toQ a, toQ b with
  | some x, some y => .ok (.vfloat (x * y))
  | _, _ => .error "unsupported operand types for *"
| .div, a, b =>
  match toQ a, toQ b with
  | some x, some y =>
    if y = 0 then
      .error (if isVInt a && isVInt b then "division by zero" else "float division by zero")
    else .ok (.vfloat (x / y))
  | _, _ => .error "unsupported operand types for /"
| .pow, .vint a, .vint b =>
  if 0 ≤ b then .ok (.vint (a ^ b.toNat))
  else if a = 0 then .error "0.0 cannot be raised to a negative power"
  else .ok (.vfloat ((a : ℚ) ^ b))
| .pow, a, b =>
  match toQ a, toQ b with
  | some x, some y =>
    if isIntegralQ y then
      if x = 0 && y < 0 then .error "0.0 cannot be raised to a negative power"
      else .ok (.vfloat (x ^ y.num))
    else if x < 0 then .ok (.vcomplex (M.cpowRe x y) (M.cpowIm x y))
    else if x = 0 then .ok (.vfloat 0)
    else .ok (.vfloat (M.fpow x y))
  | _, _ => .error "unsupported operand types for **"

/-- Names bound to function objects in the safe namespace `safe_dict` of
`evaluate` (the dictionary also binds the float constants pi and e,
handled separately, and an empty `__builtins__`, which no claim
reaches). -/
def evalNames : List String :=
  ["sin", "cos", "tan", "asin", "acos", "atan", "sinh", "cosh", "tanh",
   "log", "ln", "log10", "sqrt", "pow", "exp", "factorial", "abs",
   "round", "ceil", "floor", "degrees", "radians"]

/-- Name resolution against the safe namespace. -/
def lookupName (n : String) : Except String PyVal :=
  if n = "pi" then .ok (.vfloat piQ)
  else if n = "e" then .ok (.vfloat eQ)
  else if n = "__builtins__" then .ok .vdictEmpty
  else if evalNames.contains n then .ok (.vfunc n)
  else .error ("name " ++ n ++ " is not defined")

/-- Single-argument extraction. -/
def argN1 : List PyVal → Except String PyVal
| [a] => .ok a
| _ => .error "function takes exactly one argument"

/-- Single real-number argument extraction. -/
def argF1 (args : List PyVal) : Except String ℚ :=
  match args with
  | [a] =>
    match toQ a with
    | some q => .ok q
    | none => .error "must be real number"
  | _ => .error "function takes exactly one argument"

/-- Model of `math.factorial` with the semantics of the Python versions
that accept integral floats: defined on nonnegative integers and
nonnegative integral floats, returning an int. -/
def pyFactorial : PyVal → Except String PyNum
| .vint n =>
  if n < 0 then .error "factorial() not defined for negative values"
  else .ok (.i (Nat.factorial n.toNat))
| .vfloat q =>
  if ¬ isIntegralQ q then .error "factorial() only accepts integral values"
  else if q < 0 then .error "factorial() not defined for negative values"
  else .ok (.i (Nat.factorial q.num.toNat))
| _ => .error "factorial() argument must be a number"

/-- Round-half-to-even on rationals, the rounding mode of Python `round`. -/
def halfEven (x : ℚ) : ℤ :=
  let f := Rat.floor x
  let r := x - f
  if r < 1 / 2 then f
  else if 1 / 2 < r then f + 1
  else if f % 2 = 0 then f
  else f + 1

/-- Model of `round(x, d)` on a float: half-to-even at `d` decimal
places. -/
def roundTo (d : ℤ) (q : ℚ) : ℚ :=
  ((halfEven (q * (10 : ℚ) ^ d) : ℚ) / (10 : ℚ) ^ d)

/-- Model of the builtin `round` on the reachable argument shapes. -/
def pyRound : List PyVal → Except String PyNum
| [.vint n] => .ok (.i n)
| [.vfloat q] => .ok (.i (halfEven q))
| [.vint n, .vint d] => .ok (.i ((roundTo d (n : ℚ)).num))
| [.vfloat q, .vint d] => .ok (.f (roundTo d q))
| [_] => .error "type cannot be rounded"
| [_, _] => .error "second argument cannot be interpreted as an integer"
| _ => .error "round() takes 1 or 2 arguments"

/-- Model of the builtin `abs`, preserving the int/float distinction. -/
def pyAbs : List PyVal → Except String PyNum
| [.vint n] => .ok (.i (if n < 0 then -n else n))
| [.vfloat q] => .ok (.f (if q < 0 then -q else q))
| [_] => .error "bad operand type for abs()"
| _ => .error "abs() takes exactly one argument"

/-- Model of `math.pow`: always a float, with the zero-base and
negative-base domain errors of the library function. -/
def mathPow (M : TranscFns) (args : List PyVal) : Except String PyNum :=
  match args with
  | [a, b] =>
    match toQ a, toQ b with
    | some x, some y =>
      if x = 0 then
        if y < 0 then .error "math domain error"
        else if y = 0 then .ok (.f 1)
        else .ok (.f 0)
      else if isIntegralQ y then .ok (.f (x ^ y.num))
      else if x < 0 then .error "math domain error"
      else .ok (.f (M.fpow x y))
    | _, _ => .error "must be real number"
  | _ => .error "pow expected 2 arguments"

/-- Application of a safe-namespace function object to its evaluated
arguments; each entry mirrors the corresponding `math` or builtin
function, including its domain errors, and every success is numeric. -/
def applyFn (M : TranscFns) (n : String) (args : List PyVal) : Except String PyNum :=
  if n = "sin" then (argF1 args).map (fun q => .f (M.sin q))
  else if n = "cos" then (argF1 args).map (fun q => .f (M.cos q))
  else if n = "tan" then (argF1 args).map (fun q => .f (M.tan q))
  else if n = "asin" then
    match argF1 args with
    | .error m => .error m
    | .ok q => if q < -1 || 1 < q then .error "math domain error" else .ok (.f (M.asin q))
  else if n = "acos" then
    match argF1 args with
    | .error m => .error m
    | .ok q => if q < -1 || 1 < q then .error "math domain error" else .ok (.f (M.acos q))
  else if n = "atan" then (argF1 args).map (fun q => .f (M.atan q))
  else if n = "sinh" then (argF1 args).map (fun q => .f (M.sinh q))
  else if n = "cosh" then (argF1 args).map (fun q => .f (M.cosh q))
  else if n = "tanh" then (argF1 args).map (fun q => .f (M.tanh q))
  else if n = "log" then
    match argF1 args with
    | .error m => .error m
    | .ok q => if q ≤ 0 then .error "math domain error" else .ok (.f (M.log10 q))
  else if n = "ln" then
    match argF1 args with
    | .error m => .error m
    | .ok q => if q ≤ 0 then .error "math domain error" else .ok (.f (M.ln q))
  else if n = "log10" then
    match argF1 args with
    | .error m => .error m
    | .ok q => if q ≤ 0 then .error "math domain error" else .ok (.f (M.log10 q))
  else if n = "sqrt" then
    match argF1 args with
    | .error m => .error m
    | .ok q => if q < 0 then .error "math domain error" else .ok (.f (M.sqrt q))
  else if n = "pow" then mathPow M args
  else if n = "exp" then (argF1 args).map (fun q => .f (M.exp q))
  else if n = "factorial" then
    match argN1 args with
    | .error m => .error m
    | .ok a => pyFactorial a
  else if n = "abs" then pyAbs args
  else if n = "round" then pyRound args
  else if n = "ceil" then
    match argF1 args with
    | .error m => .error m
    | .ok q => .ok (.i (Rat.ceil q))
  else if n = "floor" then
    match argF1 args with
    | .error m => .error m
    | .ok q => .ok (.i (Rat.floor q))
  else if n = "degrees" then (argF1 args).map (fun q => .f (M.deg q))
  else if n = "radians" then (argF1 args).map (fun q => .f (M.rad q))
  else .error "unknown function"

/-- Call application: only the function objects of the safe namespace are
callable; calling any other value is the usual type error. -/
def applyCall (M : TranscFns) (fv : PyVal) (args : List PyVal) : Except String PyVal :=
  match fv with
  | .vfunc n => (applyFn M n args).map PyNum.toVal
  | .vint _ => .error "int object is not callable"
  | .vfloat _ => .error "float object is not callable"
  | .vstr _ => .error "str object is not callable"
  | .vtuple _ => .error "tuple object is not callable"
  | .vcomplex _ _ => .error "complex object is not callable"
  | .vdictEmpty => .error "dict object is not callable"

mutual

/-- Evaluation of an expression against the safe namespace, left to
right, with every failure reported as an error value. -/
def evalE (M : TranscFns) : Expr → Except String PyVal
| .intL n => .ok (.vint n)
| .floatL q => .ok (.vfloat q)
| .strL s => .ok (.vstr s)
| .name n => lookupName n
| .un op a =>
  match evalE M a with
  | .error m => .error m
  | .ok x => (applyUn op x).map PyNum.toVal
| .bin op a b =>
  match evalE M a with
  | .error m => .error m
  | .ok x =>
    match evalE M b with
    | .error m => .error m
    | .ok y => applyBin M op x y
| .tup es => (evalL M es).map .vtuple
| .call f args =>
  match evalE M f with
  | .error m => .error m
  | .ok fv =>
    match evalL M args with
    | .error m => .error m
    | .ok vs => applyCall M fv vs

/-- Left-to-right evaluation of an expression list. -/
def evalL (M : TranscFns) : List Expr → Except String (List PyVal)
| [] => .ok []
| a :: es =>
  match evalE M a with
  | .error m => .error m
  | .ok v =>
    match evalL M es with
    | .error m => .error m
    | .ok vs => .ok (v :: vs)

end

/-- Preprocess, tokenize and parse an input expression. -/
def parsedOf (s : String) : Except String Expr :=
  match lexAll (preprocess s) with
  | .error m => .error m
  | .ok ts => parseFull ts

/-- Preprocess, tokenize, parse and evaluate: the body of the `try` block
of `ScientificCalculator.evaluate`. -/
def evalCore (M : TranscFns) (s : String) : Except String PyVal :=
  match parsedOf s with
  | .error m => .error m
  | .ok a => evalE M a

/-- Model of `ScientificCalculator.evaluate`: the computed value on
success, and the string `Error: ` followed by the exception text on any
internal failure. -/
def evaluate (M : TranscFns) (s : String) : PyVal :=
  match evalCore M s with
  | .ok v => v
  | .error m => .vstr ("Error: " ++ m)

/-- Numeric values. -/
def isNum : PyVal → Bool
| .vint _ => true
| .vfloat _ => true
| _ => false

/-- String values. -/
def isStr : PyVal → Bool
| .vstr _ => true
| _ => false

/-- Model of `str.startswith`: the leading characters of `s` are exactly
those of `p`. -/
def strStarts (s p : String) : Bool := s.data.take p.data.length == p.data

/-- The error check of `calculate`: a string value whose text starts with
`Error`. -/
def isErrorStr : PyVal → Bool
| .vstr s => strStarts s "Error"
| _ => false

/-- Whitespace trimming on both ends of a character list. -/
def trimWs (cs : List Char) : List Char :=
  ((cs.dropWhile Char.isWhitespace).reverse.dropWhile Char.isWhitespace).reverse

/-- Model of Python `float(str)` on the reachable inputs: optional
whitespace, an optional sign, digits with an optional decimal point
(exponent notation, infinities and nan are outside the reachable
fragment). -/
def pyFloatOfString (s : String) : Except String ℚ :=
  let msg := "could not convert string to float: " ++ s
  let cs := trimWs s.data
  let sp : ℚ × List Char :=
    match cs with
    | '-' :: r => (-1, r)
    | '+' :: r => (1, r)
    | r => (1, r)
  let p1 := takeDigits sp.2
  match p1.2 with
  | [] =>
    if p1.1.isEmpty then .error msg
    else .ok (sp.1 * (digitsToNat p1.1 : ℚ))
  | '.' :: r2 =>
    let p2 := takeDigits r2
    if p2.2.isEmpty then
      if p1.1.isEmpty && p2.1.isEmpty then .error msg
      else .ok (sp.1 * ((digitsToNat p1.1 : ℚ) + (digitsToNat p2.1 : ℚ) / (10 : ℚ) ^ p2.1.length))
    else .error msg
  | _ => .error msg

/-- The fixed table of `ScientificCalculator.scientific_function`: name to
unary operation on the converted float, in source order, with the domain
errors of the underlying `math` functions and lambdas. -/
def sciTable : List (String × (TranscFns → ℚ → Except String PyNum)) :=
  [("sin", fun M q => .ok (.f (M.sin q))),
   ("cos", fun M q => .ok (.f (M.cos q))),
   ("tan", fun M q => .ok (.f (M.tan q))),
   ("asin", fun M q => if q < -1 || 1 < q then .error "math domain error" else .ok (.f (M.asin q))),
   ("acos", fun M q => if q < -1 || 1 < q then .error "math domain error" else .ok (.f (M.acos q))),
   ("atan", fun M q => .ok (.f (M.atan q))),
   ("sinh", fun M q => .ok (.f (M.sinh q))),
   ("cosh", fun M q => .ok (.f (M.cosh q))),
   ("tanh", fun M q => .ok (.f (M.tanh q))),
   ("log", fun M q => if q ≤ 0 then .error "math domain error" else .ok (.f (M.log10 q))),
   ("ln", fun M q => if q ≤ 0 then .error "math domain error" else .ok (.f (M.ln q))),
   ("sqrt", fun M q => if q < 0 then .error "math domain error" else .ok (.f (M.sqrt q))),
   ("square", fun _ q => .ok (.f (q * q))),
   ("cube", fun _ q => .ok (.f (q * q * q))),
   ("reciprocal", fun _ q => if q = 0 then .error "float division by zero" else .ok (.f (1 / q))),
   ("factorial", fun _ q => pyFactorial (.vfloat q)),
   ("abs", fun _ q => .ok (.f (if q < 0 then -q else q))),
   ("exp", fun M q => .ok (.f (M.exp q))),
   ("deg", fun M q => .ok (.f (M.deg q))),
   ("rad", fun M q => .ok (.f (M.rad q))),
   ("ceil", fun _ q => .ok (.i (Rat.ceil q))),
   ("floor", fun _ q => .ok (.i (Rat.floor q)))]

/-- Names of the table entries, in order. -/
def sciNames : List String := sciTable.map Prod.fst

/-- Table lookup, the model of `if func_name in functions`. -/
def sciLookup (n : String) : Option (TranscFns → ℚ → Except String PyNum) :=
  (sciTable.find? (fun p => p.1 == n)).map Prod.snd

/-- Applied table entry, used to state properties of the success path. -/
def sciApply (M : TranscFns) (n : String) (q : ℚ) : Except String PyNum :=
  match sciLookup n with
  | some f => f M q
  | none => .error "unknown function"

/-- Model of `ScientificCalculator.scientific_function`: convert the raw
value to a float, look the name up, apply, and return the string form of
the result; unknown names give the generic string `Error`, and every
raised error is rendered as `Error: ` plus its message. -/
def scientific_function (M : TranscFns) (func_name value : String) : String :=
  match pyFloatOfString value with
  | .error m => "Error: " ++ m
  | .ok q =>
    match sciLookup func_name with
    | some f =>
      match f M q with
      | .ok r => pyStr r.toVal
      | .error m => "Error: " ++ m
    | none => "Error"

/-- Session state of the Streamlit page: the display buffer, the memory
register and the history list. -/
structure CalcState where
  display : String
  memory : PyVal
  history : List String

/-- Initial session state of the script. -/
def initState : CalcState := ⟨"0", .vint 0, []⟩

/-- Result normalization of `calculate`: an integral float becomes an
int, any other float is rounded to 10 decimal places; non-floats are
untouched. -/
def formatResult : PyVal → PyVal
| .vfloat q => if isIntegralQ q then .vint q.num else .vfloat (roundTo 10 q)
| v => v

/-- Model of the `calculate` handler: evaluate the display, and either
show the error text (leaving history and memory as they were) or show the
normalized result and append `expression = result` to the history. -/
def calculate (M : TranscFns) (s : CalcState) : CalcState :=
  let expression := s.display
  let result := evaluate M expression
  if isErrorStr result then { s with display := pyStr result }
  else
    let r := formatResult result
    { display := pyStr r, memory := s.memory,
      history := s.history ++ [expression ++ " = " ++ pyStr r] }

/-- Model of the `apply_function` handler: the display becomes the raw
string returned by `scientific_function`, with no normalization. -/
def apply_function (M : TranscFns) (f : String) (s : CalcState) : CalcState :=
  { s with display := scientific_function M f s.display }

/-- Model of the `button_click` handler. -/
def button_click (v : String) (s : CalcState) : CalcState :=
  if s.display = "0" && !(["+", "-", "*", "/", "^"].contains v) then
    { s with display := v }
  else { s with display := s.display ++ v }

/-- Model of the `clear` handler. -/
def clear (s : CalcState) : CalcState := { s with display := "0" }

/-- Model of the `clear_entry` handler. -/
def clear_entry (s : CalcState) : CalcState :=
  let d := s.display.dropRight 1
  { s with display := if d = "" then "0" else d }

/-- Numeric content of the memory register (always an int or a float by
construction). -/
def memQ (v : PyVal) : ℚ := (toQ v).getD 0

/-- Model of the `memory_add` handler; an unparseable display is ignored
by the bare `except` of the source. -/
def memory_add (s : CalcState) : CalcState :=
  match pyFloatOfString s.display with
  | .ok q => { s with memory := .vfloat (memQ s.memory + q) }
  | .error _ => s

/-- Model of the `memory_subtract` handler. -/
def memory_subtract (s : CalcState) : CalcState :=
  match pyFloatOfString s.display with
  | .ok q => { s with memory := .vfloat (memQ s.memory - q) }
  | .error _ => s

/-- Model of the `memory_recall` handler. -/
def memory_recall (s : CalcState) : CalcState :=
  { s with display := pyStr s.memory }

/-- Model of the `memory_clear` handler. -/
def memory_clear (s : CalcState) : CalcState := { s with memory := .vint 0 }

/-- Model of the Clear-History button handler. -/
def clear_history (s : CalcState) : CalcState := { s with history := [] }

/-- Model of the sign-toggle button; an unparseable display is ignored. -/
def toggle_sign (s : CalcState) : CalcState :=
  match pyFloatOfString s.display with
  | .ok q => { s with display := floatStr (-q) }
  | .error _ => s

/-- Bitwise AND of the Programmer mode, the two's-complement `&` of
Python ints. -/
def bitwiseAnd (a b : ℤ) : ℤ := Int.land a b

/-- Bitwise OR of the Programmer mode. -/
def bitwiseOr (a b : ℤ) : ℤ := Int.lor a b

/-- Bitwise XOR of the Programmer mode. -/
def bitwiseXor (a b : ℤ) : ℤ := Int.xor a b

/-- Bitwise NOT of the Programmer mode, the two's-complement complement
`~` of Python ints. -/
def bitwiseNot (a : ℤ) : ℤ := Int.lnot a

/-- Every session-state mutating handler of the page, as one operation
type: button presses, the two clears, equals, the scientific function
keys, the four memory keys, the sign toggle, the Clear-History button and
the four bitwise buttons (which write the display). -/
inductive Op where
| press (v : String)
| clearDisp
| clearEntryOp
| equals
| fnKey (f : String)
| memAdd
| memSub
| memRecall
| memClear
| signToggle
| clearHistory
| andKey (a b : ℤ)
| orKey (a b : ℤ)
| xorKey (a b : ℤ)
| notKey (a : ℤ)

/-- One step of the session: dispatch an operation to its handler. -/
def step (M : TranscFns) : Op → CalcState → CalcState
| .press v, s => button_click v s
| .clearDisp, s => clear s
| .clearEntryOp, s => clear_entry s
| .equals, s => calculate M s
| .fnKey f, s => apply_function M f s
| .memAdd, s => memory_add s
| .memSub, s => memory_subtract s
| .memRecall, s => memory_recall s
| .memClear, s => memory_clear s
| .signToggle, s => toggle_sign s
| .clearHistory, s => clear_history s
| .andKey a b, s => { s with display := toString (bitwiseAnd a b) }
| .orKey a b, s => { s with display := toString (bitwiseOr a b) }
| .xorKey a b, s => { s with display := toString (bitwiseXor a b) }
| .notKey a, s => { s with display := toString (bitwiseNot a) }

/-- History line recorded for a successful evaluation of `x`. -/
def histEntry (M : TranscFns) (x : String) : String :=
  x ++ " = " ++ pyStr (formatResult (evaluate M x))

/-- Run of a sequence of evaluations: for each expression, put it on the
display and press equals. -/
def runCalcs (M : TranscFns) (es : List String) (s : CalcState) : CalcState :=
  es.foldl (fun st x => calculate M { st with display := x }) s

/-- Value of a base-`b` digit character, or 99 when invalid. -/
def digitVal (c : Char) : ℕ :=
  if c.isDigit then c.toNat - 48
  else if 97 ≤ c.toNat && c.toNat ≤ 122 then c.toNat - 87
  else if 65 ≤ c.toNat && c.toNat ≤ 90 then c.toNat - 55
  else 99

/-- Model of Python `int(str, base)` for bases 2, 8, 10 and 16: optional
whitespace and sign, an optional matching base prefix for the non-decimal
bases, then a nonempty run of digits each valid for the base. -/
def pyIntOfString (s : String) (b : ℕ) : Except String ℤ :=
  let msg := "invalid literal for int() with base " ++ toString b ++ ": " ++ s
  let cs := trimWs s.data
  let sp : ℤ × List Char :=
    match cs with
    | '-' :: r => (-1, r)
    | '+' :: r => (1, r)
    | r => (1, r)
  let body : List Char :=
    match sp.2 with
    | '0' :: c :: r =>
      if (b = 2 && (c = 'b' || c = 'B')) || (b = 8 && (c = 'o' || c = 'O')) ||
         (b = 16 && (c = 'x' || c = 'X')) then r
      else sp.2
    | _ => sp.2
  if body.isEmpty || body.any (fun c => ¬ digitVal c < b) then .error msg
  else .ok (sp.1 * (body.foldl (fun acc c => b * acc + digitVal c) 0 : ℕ))

/-- Digit string of a natural number in base `b`. -/
def natBaseStr (b : ℕ) (n : ℕ) : String := String.mk (Nat.toDigits b n)

/-- Rendering of an integer in the output base, mirroring the `bin`,
`oct`, `hex` and `str` calls of the Convert handler. -/
def renderBase (b : ℕ) (n : ℤ) : String :=
  let sgn := if n < 0 then "-" else ""
  if b = 2 then sgn ++ "0b" ++ natBaseStr 2 n.natAbs
  else if b = 8 then sgn ++ "0o" ++ natBaseStr 8 n.natAbs
  else if b = 16 then sgn ++ "0x" ++ natBaseStr 16 n.natAbs
  else toString n

/-- Model of the Convert button body: parse in the input base, render in
the output base. -/
def convertBase (s : String) (ib ob : ℕ) : Except String String :=
  match pyIntOfString s ib with
  | .error m => .error m
  | .ok n => .ok (renderBase ob n)

/-- Concrete instance of the transcendental parameters, used to
instantiate universally quantified theorems at concrete inputs; no
claim-relevant computation depends on its values. -/
def TF0 : TranscFns :=
  ⟨fun _ => 0, fun _ => 0, fun _ => 0, fun _ => 0, fun _ => 0, fun _ => 0,
   fun _ => 0, fun _ => 0, fun _ => 0, fun _ => 0, fun _ => 0, fun _ => 0,
   fun _ => 0, fun _ => 0, fun _ => 0, fun _ _ => 0, fun _ _ => 0, fun _ _ => 0⟩

/-- Numeric-valued expression shapes: numeric literals, the constants pi
and e, unary arithmetic, binary arithmetic *except the power operator*
(a fractional power of a negative base returns a complex number), and
calls (every safe-namespace function returns an int or a float).
Excludes string literals, tuple displays and bare non-constant names,
whose values are strings, tuples, function objects or the empty
builtins dict. -/
def numShape : Expr → Bool
| .intL _ => true
| .floatL _ => true
| .strL _ => false
| .name n => n == "pi" || n == "e"
| .un _ a => numShape a
| .bin .pow _ _ => false
| .bin _ a b => numShape a && numShape b
| .call _ _ => true
| .tup _ => false

/-- The five-character input text double-quote a b c double-quote: a
Python string literal. -/
def dqAbc : String := String.mk [dquote, 'a', 'b', 'c', dquote]

/-- The input text whose caret-preprocessed form is a fractional power
of a negative base. -/
def powNegInput : String := "(0-8)^0.5"

/-- Strings of the form `Error: ` plus a message pass the startswith
check of the error screen. -/
theorem errorStr_starts (m : String) : strStarts ("Error: " ++ m) "Error" = true := by
  obtain ⟨l⟩ := m
  rfl

/-- Numeric results injected into the value universe are numeric. -/
theorem isNum_toVal (r : PyNum) : isNum r.toVal = true := by
  cases r <;> rfl

/-- Successful calls return numeric values (every entry of the safe
namespace does). -/
theorem applyCall_ok_num (M : TranscFns) (fv : PyVal) (args : List PyVal) (v : PyVal)
    (h : applyCall M fv args = .ok v) : isNum v = true := by
  cases fv with
  | vfunc n =>
    replace h : Except.map PyNum.toVal (applyFn M n args) = .ok v := h
    cases h2 : applyFn M n args with
    | error m => rw [h2] at h; cases h
    | ok r =>
      rw [h2] at h
      cases h
      exact isNum_toVal r
  | vint n => cases h
  | vfloat q => cases h
  | vstr s => cases h
  | vtuple vs => cases h
  | vcomplex re im => cases h
  | vdictEmpty => cases h

/-- Non-power binary arithmetic on numeric operands yields a numeric
result. -/
theorem applyBin_ok_num (M : TranscFns) (op : BinOp) (x y v : PyVal)
    (hop : op ≠ BinOp.pow) (hx : isNum x = true) (hy : isNum y = true)
    (h : applyBin M op x y = .ok v) : isNum v = true := by
  have hx2 : (∃ n, x = PyVal.vint n) ∨ ∃ q, x = PyVal.vfloat q := by
    cases x with
    | vint n => exact .inl ⟨n, rfl⟩
    | vfloat q => exact .inr ⟨q, rfl⟩
    | vstr s => exact Bool.noConfusion hx
    | vtuple vs => exact Bool.noConfusion hx
    | vfunc n => exact Bool.noConfusion hx
    | vcomplex re im => exact Bool.noConfusion hx
    | vdictEmpty => exact Bool.noConfusion hx
  have hy2 : (∃ n, y = PyVal.vint n) ∨ ∃ q, y = PyVal.vfloat q := by
    cases y with
    | vint n => exact .inl ⟨n, rfl⟩
    | vfloat q => exact .inr ⟨q, rfl⟩
    | vstr s => exact Bool.noConfusion hy
    | vtuple vs => exact Bool.noConfusion hy
    | vfunc n => exact Bool.noConfusion hy
    | vcomplex re im => exact Bool.noConfusion hy
    | vdictEmpty => exact Bool.noConfusion hy
  rcases hx2 with ⟨a2, rfl⟩ | ⟨a2, rfl⟩ <;> rcases hy2 with ⟨b2, rfl⟩ | ⟨b2, rfl⟩ <;>
    cases op <;> try exact absurd rfl hop
  all_goals simp only [applyBin, toQ] at h
  all_goals try (cases h; rfl)
  all_goals
    split at h
    · cases h
    · cases h
      rfl

/-- A successful evaluation of a numeric-shaped expression returns a
finite numeric value (an int or a float). -/
theorem evalE_numShape (M : TranscFns) :
    ∀ (a : Expr), numShape a = true → ∀ v, evalE M a = .ok v → isNum v = true
| .intL _, _, v, h => by cases h; rfl
| .floatL _, _, v, h => by cases h; rfl
| .strL _, ha, _, _ => by simp [numShape] at ha
| .name n, ha, v, h => by
  have hn : n = "pi" ∨ n = "e" := by simpa [numShape] using ha
  rcases hn with hn | hn <;> subst hn <;> cases h <;> rfl
| .un op b, _, v, h => by
  cases h1 : evalE M b with
  | error m => simp only [evalE, h1, Except.map] at h; cases h
  | ok x =>
    simp only [evalE, h1] at h
    cases h2 : applyUn op x with
    | error m => rw [h2] at h; cases h
    | ok r => rw [h2] at h; cases h; exact isNum_toVal r
| .bin op b c, ha, v, h => by
  have hop : op ≠ BinOp.pow := by
    intro hh
    subst hh
    simp [numShape] at ha
  have hab : numShape b = true ∧ numShape c = true := by
    cases op <;> simp_all [numShape]
  cases h1 : evalE M b with
  | error m => simp only [evalE, h1, Except.map] at h; cases h
  | ok x =>
    cases h2 : evalE M c with
    | error m => simp only [evalE, h1, h2, Except.map] at h; cases h
    | ok y =>
      simp only [evalE, h1, h2] at h
      exact applyBin_ok_num M op x y v hop
        (evalE_numShape M b hab.1 x h1) (evalE_numShape M c hab.2 y h2) h
| .tup _, ha, _, _ => by simp [numShape] at ha
| .call f args, _, v, h => by
  cases h1 : evalE M f with
  | error m => simp only [evalE, h1, Except.map] at h; cases h
  | ok fv =>
    cases h2 : evalL M args with
    | error m => simp only [evalE, h1, h2, Except.map] at h; cases h
    | ok vs =>
      simp only [evalE, h1, h2] at h
      exact applyCall_ok_num M fv vs v h

/-- Dichotomy of `evaluate`: the success value of the core, or the error
text prefixed with `Error: ` (which passes the error check, and is the
only way a string comes back). -/
theorem evaluate_cases (M : TranscFns) (s : String) :
    (∃ m, evalCore M s = .error m ∧ evaluate M s = .vstr ("Error: " ++ m) ∧
      isErrorStr (evaluate M s) = true) ∨
    (∃ v, evalCore M s = .ok v ∧ evaluate M s = v) := by
  cases h : evalCore M s with
  | error m =>
    left
    refine ⟨m, rfl, by simp [evaluate, h], ?_⟩
    simp only [evaluate, h, isErrorStr]
    exact errorStr_starts m
  | ok v =>
    right
    exact ⟨v, rfl, by simp [evaluate, h]⟩

/-- Success path of `scientific_function`: parse the float, apply the
table entry, return the raw string form of the result. -/
theorem sci_success (M : TranscFns) (n val : String) (q : ℚ) (r : PyNum)
    (h1 : pyFloatOfString val = .ok q) (h2 : sciApply M n q = .ok r) :
    scientific_function M n val = pyStr r.toVal := by
  unfold sciApply at h2
  cases hl : sciLookup n with
  | none => rw [hl] at h2; cases h2
  | some f =>
    rw [hl] at h2
    replace h2 : f M q = .ok r := h2
    simp [scientific_function, h1, hl, h2]

/-- Dichotomy of `scientific_function`: an error string starting with
`Error`, or the raw string form of a successfully applied table entry. -/
theorem sci_cases (M : TranscFns) (n val : String) :
    strStarts (scientific_function M n val) "Error" = true ∨
    ∃ q r, pyFloatOfString val = .ok q ∧ sciApply M n q = .ok r ∧
      scientific_function M n val = pyStr r.toVal := by
  cases h1 : pyFloatOfString val with
  | error m =>
    left
    simp only [scientific_function, h1]
    exact errorStr_starts m
  | ok q =>
    cases hl : sciLookup n with
    | none =>
      left
      simp only [scientific_function, h1, hl]
      rfl
    | some f =>
      cases h2 : f M q with
      | error m =>
        left
        simp only [scientific_function, h1, hl, h2]
        exact errorStr_starts m
      | ok r =>
        right
        exact ⟨q, r, rfl, by simp [sciApply, hl, h2], by simp [scientific_function, h1, hl, h2]⟩

/-- Error path of `calculate`: the display shows the error text, memory
and history are unchanged. -/
theorem calculate_error (M : TranscFns) (s : CalcState)
    (h : isErrorStr (evaluate M s.display) = true) :
    calculate M s = ⟨pyStr (evaluate M s.display), s.memory, s.history⟩ := by
  simp [calculate, h]

/-- Success path of `calculate`: the display shows the normalized result
and one history line is appended. -/
theorem calculate_success (M : TranscFns) (s : CalcState)
    (h : isErrorStr (evaluate M s.display) = false) :
    calculate M s = ⟨pyStr (formatResult (evaluate M s.display)), s.memory,
      s.history ++ [s.display ++ " = " ++ pyStr (formatResult (evaluate M s.display))]⟩ := by
  simp [calculate, h]

/-- History of a run of successful evaluations: one line per expression,
appended in order. -/
theorem runCalcs_history (M : TranscFns) (es : List String) (s : CalcState)
    (h : ∀ x ∈ es, isErrorStr (evaluate M x) = false) :
    (runCalcs M es s).history = s.history ++ es.map (histEntry M) := by
  induction es generalizing s with
  | nil => simp [runCalcs]
  | cons x es ih =>
    have hx : isErrorStr (evaluate M x) = false := h x (List.mem_cons_self x es)
    have hstep : calculate M { s with display := x } =
        ⟨pyStr (formatResult (evaluate M x)), s.memory, s.history ++ [histEntry M x]⟩ :=
      calculate_success M { s with display := x } hx
    have htl : ∀ y ∈ es, isErrorStr (evaluate M y) = false :=
      fun y hy => h y (List.mem_cons_of_mem x hy)
    calc (runCalcs M (x :: es) s).history
        = (runCalcs M es (calculate M { s with display := x })).history := rfl
      _ = (calculate M { s with display := x }).history ++ es.map (histEntry M) := ih _ htl
      _ = s.history ++ (x :: es).map (histEntry M) := by
          rw [hstep]
          simp [histEntry]

/-- Every operation except the Clear-History button only ever appends to
the history. -/
theorem step_history (M : TranscFns) (op : Op) (s : CalcState)
    (h : op ≠ Op.clearHistory) : ∃ t, (step M op s).history = s.history ++ t := by
  cases op with
  | press v =>
    refine ⟨[], ?_⟩
    show (button_click v s).history = s.history ++ []
    unfold button_click
    split <;> simp
  | clearDisp => exact ⟨[], by simp [step, clear]⟩
  | clearEntryOp => exact ⟨[], by simp [step, clear_entry]⟩
  | equals =>
    by_cases hc : isErrorStr (evaluate M s.display) = true
    · exact ⟨[], by simp [step, calculate_error M s hc]⟩
    · refine ⟨[s.display ++ " = " ++ pyStr (formatResult (evaluate M s.display))], ?_⟩
      simp [step, calculate_success M s (Bool.not_eq_true _ ▸ hc)]
  | fnKey f => exact ⟨[], by simp [step, apply_function]⟩
  | memAdd =>
    refine ⟨[], ?_⟩
    show (memory_add s).history = s.history ++ []
    unfold memory_add
    split <;> simp
  | memSub =>
    refine ⟨[], ?_⟩
    show (memory_subtract s).history = s.history ++ []
    unfold memory_subtract
    split <;> simp
  | memRecall => exact ⟨[], by simp [step, memory_recall]⟩
  | memClear => exact ⟨[], by simp [step, memory_clear]⟩
  | signToggle =>
    refine ⟨[], ?_⟩
    show (toggle_sign s).history = s.history ++ []
    unfold toggle_sign
    split <;> simp
  | clearHistory => exact absurd rfl h
  | andKey a b => exact ⟨[], by simp [step]⟩
  | orKey a b => exact ⟨[], by simp [step]⟩
  | xorKey a b => exact ⟨[], by simp [step]⟩
  | notKey a => exact ⟨[], by simp [step]⟩

/-- Replacing a character by a string not containing it removes every
occurrence. -/
theorem replaceChar_not_mem (c : Char) (r : String) (hr : c ∉ r.data) (s : String) :
    c ∉ (replaceChar c r s).data := by
  obtain ⟨l⟩ := s
  show c ∉ (String.mk (l.foldr (fun ch acc => (if ch = c then r.data else [ch]) ++ acc) [])).data
  induction l with
  | nil => simp
  | cons ch l ih =>
    simp only [List.foldr]
    intro hmem
    rcases List.mem_append.mp hmem with h1 | h1
    · split at h1
      · exact hr h1
      · rename_i hne
        rcases List.mem_singleton.mp h1 with rfl
        exact hne rfl
    · exact ih h1

/-- C1 (amended): both public operations are total and catch every
internal error at their boundary, converting it to a string-form result
prefixed with `Error`; `evaluate` otherwise returns the computed Python
value (which need not be numeric), and `scientific_function` otherwise
returns the raw string form of the applied table entry. -/
theorem c1_error_boundary : ∀ (M : TranscFns) (s fn val : String),
    ((∃ m, evalCore M s = .error m ∧ evaluate M s = .vstr ("Error: " ++ m) ∧
        isErrorStr (evaluate M s) = true) ∨
      (∃ v, evalCore M s = .ok v ∧ evaluate M s = v)) ∧
    (strStarts (scientific_function M fn val) "Error" = true ∨
      ∃ q r, pyFloatOfString val = .ok q ∧ sciApply M fn q = .ok r ∧
        scientific_function M fn val = pyStr r.toVal) := by
  intro M s fn val
  constructor
  · exact evaluate_cases M s
  · exact sci_cases M fn val

/-- C1 counterexample: on the input `1,2` the operation `evaluate`
returns a tuple value, which is neither a number nor a string beginning
with `Error`, refuting the claimed shape of the returned values. -/
theorem c1_counterexample :
    evaluate TF0 "1,2" = .vtuple [.vint 1, .vint 2] ∧
    isNum (evaluate TF0 "1,2") = false ∧
    isErrorStr (evaluate TF0 "1,2") = false :=
  ⟨rfl, rfl, rfl⟩

/-- C2: applying the single-function operation `factorial` to the raw
string `5` returns `120`, and applying it to `-1` returns an error
string. -/
theorem c2_factorial_values : ∀ M : TranscFns,
    scientific_function M "factorial" "5" = "120" ∧
    strStarts (scientific_function M "factorial" "-1") "Error" = true := by
  intro M
  exact ⟨by with_unfolding_all rfl, by with_unfolding_all rfl⟩

/-- C3: on a successful float-valued evaluation, `calculate` records and
displays the integer conversion when the value is integral and the
10-decimal rounding otherwise, while `scientific_function` performs no
such normalization and returns the raw string form of its result. -/
theorem c3_normalization : ∀ (M : TranscFns) (s : CalcState) (q : ℚ),
    evaluate M s.display = .vfloat q →
    ((isIntegralQ q = true →
        (calculate M s).display = toString q.num ∧
        (calculate M s).history = s.history ++ [s.display ++ " = " ++ toString q.num]) ∧
      (isIntegralQ q = false →
        (calculate M s).display = floatStr (roundTo 10 q) ∧
        (calculate M s).history = s.history ++ [s.display ++ " = " ++ floatStr (roundTo 10 q)])) ∧
    (∀ fn val x r, pyFloatOfString val = .ok x → sciApply M fn x = .ok r →
        scientific_function M fn val = pyStr r.toVal) := by
  intro M s q h
  have hf : isErrorStr (evaluate M s.display) = false := by rw [h]; rfl
  have hc := calculate_success M s hf
  refine ⟨⟨?_, ?_⟩, fun fn val x r h1 h2 => sci_success M fn val x r h1 h2⟩
  · intro hi
    rw [hc, h]
    constructor <;> simp [formatResult, hi, pyStr]
  · intro hi
    rw [hc, h]
    constructor <;> simp [formatResult, hi, pyStr]

/-- C3 witness: `8/2` evaluates to the integral float 4 and is recorded
as the integer 4; `1/3` is rounded to 10 decimal places; `square` of 3
stays the raw float string `9.0`. -/
theorem c3_witness :
    (calculate TF0 ⟨"8/2", .vint 0, []⟩).display = "4" ∧
    (calculate TF0 ⟨"1/3", .vint 0, []⟩).display = "0.3333333333" ∧
    scientific_function TF0 "square" "3" = "9.0" := by
  have h4 := c3_normalization TF0 ⟨"8/2", .vint 0, []⟩ 4 (by with_unfolding_all rfl)
  have h3 := c3_normalization TF0 ⟨"1/3", .vint 0, []⟩ (1 / 3) (by with_unfolding_all rfl)
  refine ⟨?_, ?_, ?_⟩
  · exact ((h4.1.1 (by with_unfolding_all rfl)).1).trans (by with_unfolding_all rfl)
  · exact ((h3.1.2 (by with_unfolding_all rfl)).1).trans (by with_unfolding_all rfl)
  · exact (h4.2 "square" "3" 3 (.f 9) (by with_unfolding_all rfl) (by with_unfolding_all rfl)).trans
      (by with_unfolding_all rfl)

/-- C4 (amended): `evaluate` returns either an error descriptor string
beginning with `Error` or the successfully computed Python value; that
value is a finite numeric value whenever the parsed expression is
numeric-shaped (numeric literals, pi and e, unary arithmetic, non-power
binary arithmetic and calls), but string literals evaluate to plain
non-error strings and a fractional power of a negative base evaluates
to a complex number, exactly as in CPython. -/
theorem c4_result_classification : ∀ (M : TranscFns) (s : String),
    ((∃ m, evalCore M s = .error m ∧ evaluate M s = .vstr ("Error: " ++ m) ∧
        isErrorStr (evaluate M s) = true) ∨
      (∃ v, evalCore M s = .ok v ∧ evaluate M s = v)) ∧
    (∀ a v, parsedOf s = .ok a → numShape a = true → evalE M a = .ok v → isNum v = true) ∧
    evaluate M dqAbc = .vstr "abc" ∧
    isErrorStr (.vstr "abc") = false ∧
    evalCore M powNegInput = .ok (.vcomplex (M.cpowRe (-8) (1 / 2)) (M.cpowIm (-8) (1 / 2))) ∧
    isNum (.vcomplex (M.cpowRe (-8) (1 / 2)) (M.cpowIm (-8) (1 / 2))) = false := by
  intro M s
  refine ⟨evaluate_cases M s, fun a v _ ha hv => evalE_numShape M a ha v hv,
    by with_unfolding_all rfl, rfl, by with_unfolding_all rfl, rfl⟩

/-- C4 counterexample: on the input `(1,2)` the operation `evaluate`
returns a tuple, not a finite numeric value and not an error descriptor
string, refuting the claimed exhaustive tagging. -/
theorem c4_counterexample :
    evaluate TF0 "(1,2)" = .vtuple [.vint 1, .vint 2] ∧
    isNum (evaluate TF0 "(1,2)") = false ∧
    isErrorStr (evaluate TF0 "(1,2)") = false :=
  ⟨rfl, rfl, rfl⟩

/-- C4 witness: the arithmetic expression `2*3` parses to a
numeric-shaped tree and evaluates to a numeric value. -/
theorem c4_witness : isNum (evaluate TF0 "2*3") = true := by
  have h := (c4_result_classification TF0 "2*3").2.1
    (.bin .mul (.intL 2) (.intL 3)) (.vint 6) (by with_unfolding_all rfl) (by rfl)
    (by with_unfolding_all rfl)
  exact h

/-- C5: when the evaluation of the display fails, `calculate` leaves the
history and the memory register untouched and only the display changes to
the error text. -/
theorem c5_error_preserves_state : ∀ (M : TranscFns) (s : CalcState),
    isErrorStr (evaluate M s.display) = true →
    (calculate M s).history = s.history ∧ (calculate M s).memory = s.memory ∧
    (calculate M s).display = pyStr (evaluate M s.display) := by
  intro M s h
  rw [calculate_error M s h]
  exact ⟨rfl, rfl, rfl⟩

/-- C5 witness: a division by zero leaves a nonempty history and a
nonzero memory register unchanged and shows the error text. -/
theorem c5_witness :
    (calculate TF0 ⟨"1/0", .vint 5, ["1+1 = 2"]⟩).history = ["1+1 = 2"] ∧
    (calculate TF0 ⟨"1/0", .vint 5, ["1+1 = 2"]⟩).memory = .vint 5 ∧
    (calculate TF0 ⟨"1/0", .vint 5, ["1+1 = 2"]⟩).display = "Error: division by zero" := by
  have h := c5_error_preserves_state TF0 ⟨"1/0", .vint 5, ["1+1 = 2"]⟩ (by with_unfolding_all rfl)
  exact ⟨h.1, h.2.1, h.2.2.trans (by with_unfolding_all rfl)⟩

/-- C6: starting from an empty history, N successful evaluations leave
exactly N history lines, line i pairing evaluation i's expression with
its formatted result as `expression = result`; and every operation other
than the Clear-History button at most appends to the history. -/
theorem c6_history_append_only : ∀ (M : TranscFns) (es : List String) (d : String) (mem : PyVal),
    (∀ x ∈ es, isErrorStr (evaluate M x) = false) →
    (runCalcs M es ⟨d, mem, []⟩).history = es.map (histEntry M) ∧
    (∀ (op : Op) (s : CalcState), op ≠ Op.clearHistory →
      ∃ t, (step M op s).history = s.history ++ t) := by
  intro M es d mem h
  refine ⟨?_, fun op s hop => step_history M op s hop⟩
  simpa using runCalcs_history M es ⟨d, mem, []⟩ h

/-- C6 witness: two successful evaluations from an empty history leave
exactly their two lines in order, and a non-clearing operation only
appends. -/
theorem c6_witness :
    (runCalcs TF0 ["2+2", "8/2"] ⟨"0", .vint 0, []⟩).history = ["2+2 = 4", "8/2 = 4"] ∧
    ∃ t, (step TF0 Op.memRecall ⟨"7", .vint 0, ["a = 1"]⟩).history = ["a = 1"] ++ t := by
  have h := c6_history_append_only TF0 ["2+2", "8/2"] "0" (.vint 0) ?_
  refine ⟨h.1.trans (by with_unfolding_all rfl), ?_⟩
  · simpa using h.2 Op.memRecall ⟨"7", .vint 0, ["a = 1"]⟩ (fun hh => Op.noConfusion hh)
  · intro x hx
    rcases List.mem_cons.mp hx with rfl | hx2
    · with_unfolding_all rfl
    · rcases List.mem_cons.mp hx2 with rfl | hx3
      · with_unfolding_all rfl
      · cases hx3

/-- C7 counterexample: the single-function table resolves exactly the 22
distinct enumerated names, so it does not contain exactly 21 operations
as claimed. -/
theorem c7_counterexample :
    sciNames.length = 22 ∧ sciNames.length ≠ 21 ∧ sciNames.Nodup ∧
    ∀ n ∈ sciNames, (sciLookup n).isSome = true :=
  ⟨rfl, by decide, by decide, by decide⟩

/-- C7 (amended): the table contains exactly the 22 enumerated unary
operations — a name resolves if and only if it is one of them — and for
any name outside the table (with a parseable value) the operation
returns the generic string `Error`. -/
theorem c7_fixed_table :
    (sciNames.length = 22 ∧ sciNames.Nodup) ∧
    ∀ n : String, ((sciLookup n).isSome = true ↔ n ∈ sciNames) ∧
      ∀ (M : TranscFns) (val : String) (q : ℚ), n ∉ sciNames → pyFloatOfString val = .ok q →
        scientific_function M n val = "Error" := by
  refine ⟨⟨rfl, by decide⟩, ?_⟩
  intro n
  have hiff : (sciLookup n).isSome = true ↔ n ∈ sciNames := by
    unfold sciLookup sciNames
    simp [List.find?_isSome, List.mem_map]
  refine ⟨hiff, ?_⟩
  intro M val q hmem hval
  have hnone : sciLookup n = none := by
    cases hl : sciLookup n with
    | none => rfl
    | some f => exact absurd (hiff.mp (by rw [hl]; rfl)) hmem
  simp [scientific_function, hval, hnone]

/-- C7 witness: the unknown name `foo` with the parseable value `1`
yields the generic `Error` string. -/
theorem c7_witness : scientific_function TF0 "foo" "1" = "Error" :=
  (c7_fixed_table.2 "foo").2 TF0 "1" 1 (by decide) (by with_unfolding_all rfl)

/-- C8: base conversion parses the input in the declared base (rejecting
invalid digits with a parse error) and renders the value in the output
base's canonical prefixed form; `ff` from base 16 to base 2 yields the
binary text of 255. -/
theorem c8_base_conversion :
    (∀ (s : String) (ib ob : ℕ) (n : ℤ),
        pyIntOfString s ib = .ok n → convertBase s ib ob = .ok (renderBase ob n)) ∧
    (∀ (s : String) (ib ob : ℕ) (m : String),
        pyIntOfString s ib = .error m → convertBase s ib ob = .error m) ∧
    pyIntOfString "ff" 16 = .ok 255 ∧
    convertBase "ff" 16 2 = .ok "0b11111111" ∧
    convertBase "2" 2 10 = .error "invalid literal for int() with base 2: 2" := by
  refine ⟨?_, ?_, rfl, rfl, rfl⟩
  · intro s ib ob n h
    simp [convertBase, h]
  · intro s ib ob m h
    simp [convertBase, h]

/-- C8 witness: `777` parsed in base 8 renders in base 16 with the `0x`
prefix. -/
theorem c8_witness :
    convertBase "777" 8 16 = .ok (renderBase 16 511) ∧ renderBase 16 511 = "0x1ff" :=
  ⟨c8_base_conversion.1 "777" 8 16 511 (by with_unfolding_all rfl), rfl⟩

/-- C9: the Programmer-mode bitwise operations satisfy AND commutativity,
NOT involution, and NOT equals the two's-complement complement
-(a+1). -/
theorem c9_bitwise_laws : ∀ a b : ℤ,
    bitwiseAnd a b = bitwiseAnd b a ∧
    bitwiseNot (bitwiseNot a) = a ∧
    bitwiseNot a = -(a + 1) := by
  intro a b
  refine ⟨?_, ?_, ?_⟩
  · unfold bitwiseAnd
    cases a <;> cases b <;> simp [Int.land, Nat.land_comm, Nat.lor_comm]
  · unfold bitwiseNot
    cases a <;> rfl
  · unfold bitwiseNot
    cases a <;> simp [Int.lnot, Int.negSucc_eq]

/-- C10: the preprocessing replaces every occurrence of the character e
— not just a standalone constant symbol — so `exp(0)` and `ceil(1.2)`
are corrupted into syntax errors, and no preprocessed text contains the
character e at all. -/
theorem c10_e_substitution : ∀ M : TranscFns,
    preprocess "exp(0)" = "2.718281828459045xp(0)" ∧
    isErrorStr (evaluate M "exp(0)") = true ∧
    preprocess "ceil(1.2)" = "c2.718281828459045il(1.2)" ∧
    isErrorStr (evaluate M "ceil(1.2)") = true ∧
    ∀ s : String, 'e' ∉ (preprocess s).data := by
  intro M
  refine ⟨rfl, by with_unfolding_all rfl, rfl, by with_unfolding_all rfl, fun s => ?_⟩
  exact replaceChar_not_mem 'e' eStr (by decide) _

/-- C10 witness: concrete instances of the substitution statement. -/
theorem c10_witness :
    isErrorStr (evaluate TF0 "exp(0)") = true ∧ 'e' ∉ (preprocess "e+e").data := by
  have h := c10_e_substitution TF0
  exact ⟨h.2.1, h.2.2.2.2 "e+e"⟩

end Mon
